import Mathlib

/-!
# Verification of the `convolveAndSubtract` specification of lsst-dm/legacy-diffim

The repository fragment contains the pybind11 binding file
`python/lsst/legacy-diffim/imageSubtract.cc`, which exposes the
`convolveAndSubtract` overload family, and a documentation stub.  This file
embeds two layers:

* a model of the binding declarations (`declareConvolveAndSubtract`,
  `wrapImageSubtract`), translated from the source file, describing exactly
  which overloads are exposed, with which template instantiations and which
  default arguments;
* a model of the convolve-and-subtract engine itself.  The engine's C++
  implementation is not part of the fragment (only its binding is), so the
  engine is modelled from the specification's §4.1 algorithm, over exact
  rational pixel arithmetic.
-/

namespace Diffim

/-! ## Binding-layer model, from `imageSubtract.cc` -/

/-- A C++ floating-point scalar type appearing in the binding's template
instantiations. -/
inductive CppFloat where
  | float
  | double
deriving DecidableEq, Repr

/-- The C++ type of the `background` parameter of an exposed overload:
either a plain scalar or an `afw::math::Function2` function object, each
carrying its precision. -/
inductive BackgroundType where
  | scalar (precision : CppFloat)
  | function2 (precision : CppFloat)
deriving DecidableEq, Repr

/-- The precision of the background argument of an overload. -/
def BackgroundType.precision : BackgroundType → CppFloat
  | .scalar p => p
  | .function2 p => p

/-- The C++ type of the `templateImage` parameter: a `MaskedImage` or a
plain `Image`. -/
inductive TemplateType where
  | maskedImage
  | image
deriving DecidableEq, Repr

/-- One exposed Python overload of `convolveAndSubtract`, as declared by a
`mod.def` call in `imageSubtract.cc`: the pixel template parameter, the
template-image kind, the background type, and the declared default value of
the `invert` keyword argument. -/
structure Overload where
  pixel : CppFloat
  templateImage : TemplateType
  background : BackgroundType
  invertDefault : Bool
deriving DecidableEq, Repr

/-- `declareConvolveAndSubtract<PixelT, BackgroundT>`: registers two
overloads, one taking a `MaskedImage<PixelT>` template image and one taking
an `Image<PixelT>` template image, both with `"invert"_a = true`.
Translated from `imageSubtract.cc` lines 52–70. -/
def declareConvolveAndSubtract (pixel : CppFloat) (background : BackgroundType) :
    List Overload :=
  [{ pixel := pixel, templateImage := .maskedImage, background := background,
     invertDefault := true },
   { pixel := pixel, templateImage := .image, background := background,
     invertDefault := true }]

/-- `wrapImageSubtract`: the full set of exposed overloads, produced by the
two instantiations `declareConvolveAndSubtract<float, double>` and
`declareConvolveAndSubtract<float, afw::math::Function2<double> const &>`.
Translated from `imageSubtract.cc` lines 74–77. -/
def wrapImageSubtract : List Overload :=
  declareConvolveAndSubtract .float (.scalar .double) ++
    declareConvolveAndSubtract .float (.function2 .double)

end Diffim

namespace Diffim

/-- C1: the module exposes `convolveAndSubtract` in exactly two overload
families — background a scalar `double` and background a
`Function2<double>` — each for both a `MaskedImage` and a plain `Image`
template, instantiated only for `float` pixels, and every exposed overload
defaults `invert` to `true`. -/
theorem c1_exposed_overloads :
    wrapImageSubtract =
      [{ pixel := .float, templateImage := .maskedImage,
         background := .scalar .double, invertDefault := true },
       { pixel := .float, templateImage := .image,
         background := .scalar .double, invertDefault := true },
       { pixel := .float, templateImage := .maskedImage,
         background := .function2 .double, invertDefault := true },
       { pixel := .float, templateImage := .image,
         background := .function2 .double, invertDefault := true }] ∧
    wrapImageSubtract.all
      (fun o => o.pixel = CppFloat.float && o.invertDefault) = true := by
  refine ⟨rfl, ?_⟩
  decide

/-! ## Engine model

The convolve-and-subtract engine itself (LSST `ip_diffim`'s
`convolveAndSubtract`) is not among the fragment's source files; only its
pybind11 binding is.  The definitions below are therefore modelled from the
specification (§3 data model, §4.1 algorithm and error conditions), with
pixel values as exact rationals. -/

/-- Modelled from the spec: a masked image (§3) — a 2D grid of
floating-point pixel values with a per-pixel bitmask plane and a per-pixel
variance plane.  The grid occupies pixel coordinates `0 ≤ x < width`,
`0 ≤ y < height`; the planes are total functions on coordinates so that
edge-adjacent convolution windows are well defined. -/
structure MaskedImage where
  width : ℕ
  height : ℕ
  img : ℤ → ℤ → ℚ
  msk : ℤ → ℤ → ℕ
  var : ℤ → ℤ → ℚ

/-- Modelled from the spec: a 2D convolution kernel (§3) — an immutable
stencil of coefficients with a defined center pixel; valid kernels have odd
width and height. -/
structure Kernel where
  width : ℕ
  height : ℕ
  coeff : ℕ → ℕ → ℚ

/-- Horizontal half-width of the kernel footprint: `floor(width / 2)`. -/
def Kernel.halfW (k : Kernel) : ℕ := k.width / 2

/-- Vertical half-width of the kernel footprint: `floor(height / 2)`. -/
def Kernel.halfH (k : Kernel) : ℕ := k.height / 2

/-- The kernel with every coefficient squared element-wise, used for
variance propagation (§4.1 step 4). -/
def Kernel.sq (k : Kernel) : Kernel :=
  { width := k.width, height := k.height, coeff := fun j i => k.coeff j i ^ 2 }

/-- Modelled from the spec: a background model (§3) — either a single
scalar or a smooth 2D function evaluable at any image coordinate. -/
inductive Background where
  | const (c : ℚ)
  | spatial (f : ℤ → ℤ → ℚ)

/-- Evaluate a background model at pixel coordinate `(x, y)`
(§4.1 step 2: constant — same value everywhere; spatially varying —
evaluate the 2D function at `(x, y)`). -/
def Background.eval : Background → ℤ → ℤ → ℚ
  | .const c, _, _ => c
  | .spatial f, x, y => f x y

/-- Modelled from the spec: discrete 2D convolution of a plane `f` with the
kernel at output pixel `(x, y)`, kernel center aligned to the output pixel
(§4.1 step 1): the weighted sum of plane values under the kernel
footprint. -/
def convolvePix (f : ℤ → ℤ → ℚ) (k : Kernel) (x y : ℤ) : ℚ :=
  ∑ i ∈ Finset.range k.height, ∑ j ∈ Finset.range k.width,
    k.coeff j i * f (x + j - k.halfW) (y + i - k.halfH)

/-- Modelled from the spec: the bitwise-OR of all mask-plane pixels under
the kernel footprint centered at `(x, y)` (§4.1 step 5). -/
def orFootprint (m : ℤ → ℤ → ℕ) (k : Kernel) (x y : ℤ) : ℕ :=
  (List.range k.height).foldl
    (fun a i =>
      (List.range k.width).foldl
        (fun b j => b ||| m (x + j - k.halfW) (y + i - k.halfH)) a)
    0

/-- The mask bit used for the "edge" flag (§4.1 step 6); the model fixes it
as bit 4 of the bitmask plane. -/
def edgeMask : ℕ := 16

/-- Modelled from the spec: pixel `(x, y)` of a `width × height` output is
an edge pixel when it lies within `floor(kernelWidth/2)` columns or
`floor(kernelHeight/2)` rows of any image edge (§4.1 step 6). -/
def isEdge (width height : ℕ) (k : Kernel) (x y : ℤ) : Prop :=
  x < (k.halfW : ℤ) ∨ (width : ℤ) - k.halfW ≤ x ∨
    y < (k.halfH : ℤ) ∨ (height : ℤ) - k.halfH ≤ y

instance (width height : ℕ) (k : Kernel) (x y : ℤ) :
    Decidable (isEdge width height k x y) := by
  unfold isEdge
  infer_instance

/-- The error taxonomy of the engine (§7); `TypeMismatchError` is enforced
at the type level (template and science share one pixel type) and so has no
runtime representative. -/
inductive DiffimError where
  | invalidKernel
  | dimensionMismatch
deriving DecidableEq, Repr

/-- Modelled from the spec: the validation performed before any pixel is
written (§7): `InvalidKernelError` when the kernel has even width/height or
zero dimensions (zero is even), then `DimensionMismatchError` when template
and science do not overlap over a region at least as large as the kernel's
footprint (§3 invariant). -/
def precheck (t s : MaskedImage) (k : Kernel) : Option DiffimError :=
  if k.width % 2 = 0 ∨ k.height % 2 = 0 then some .invalidKernel
  else if min t.width s.width < k.width ∨ min t.height s.height < k.height then
    some .dimensionMismatch
  else none

/-- Modelled from the spec: the convolve-and-subtract engine (§4.1).
After validation, every output pixel value is
`science − (kernel ⊛ template) − background` when `invert` is true and its
negation otherwise; the output variance is the convolution of the template
variance with the squared kernel coefficients plus the science variance;
the output mask is the OR of the template masks under the footprint with
the science mask, with the edge flag OR'd in at edge pixels. -/
def convolveAndSubtract (t s : MaskedImage) (k : Kernel) (bg : Background)
    (invert : Bool) : Except DiffimError MaskedImage :=
  if k.width % 2 = 0 ∨ k.height % 2 = 0 then .error .invalidKernel
  else if min t.width s.width < k.width ∨ min t.height s.height < k.height then
    .error .dimensionMismatch
  else .ok
    { width := s.width
      height := s.height
      img := fun x y =>
        let d := s.img x y - convolvePix t.img k x y - bg.eval x y
        if invert then d else -d
      msk := fun x y =>
        let base := orFootprint t.msk k x y ||| s.msk x y
        if isEdge s.width s.height k x y then base ||| edgeMask else base
      var := fun x y => convolvePix t.var k.sq x y + s.var x y }

/-- The image-plane value of a result at `(x, y)`, when the call
succeeded. -/
def resImg : Except DiffimError MaskedImage → ℤ → ℤ → Option ℚ
  | .ok o, x, y => some (o.img x y)
  | .error _, _, _ => none

/-- The mask-plane value of a result at `(x, y)`, when the call
succeeded. -/
def resMsk : Except DiffimError MaskedImage → ℤ → ℤ → Option ℕ
  | .ok o, x, y => some (o.msk x y)
  | .error _, _, _ => none

/-- The variance-plane value of a result at `(x, y)`, when the call
succeeded. -/
def resVar : Except DiffimError MaskedImage → ℤ → ℤ → Option ℚ
  | .ok o, x, y => some (o.var x y)
  | .error _, _, _ => none

/-- The error carried by a failed result, `none` on success. -/
def errOf : Except DiffimError MaskedImage → Option DiffimError
  | .ok _ => none
  | .error e => some e

/-! ## Success-path projection lemmas -/

/-- On a validated call (odd kernel, sufficient overlap) the engine returns
an output, and its image plane at `(x, y)` carries the §4.1 step-3 value. -/
theorem resImg_ok (t s : MaskedImage) (k : Kernel) (bg : Background)
    (invert : Bool) (x y : ℤ)
    (hodd : k.width % 2 = 1 ∧ k.height % 2 = 1)
    (hdim : k.width ≤ min t.width s.width ∧ k.height ≤ min t.height s.height) :
    resImg (convolveAndSubtract t s k bg invert) x y =
      some (if invert then s.img x y - convolvePix t.img k x y - bg.eval x y
            else -(s.img x y - convolvePix t.img k x y - bg.eval x y)) := by
  have h1 : ¬ (k.width % 2 = 0 ∨ k.height % 2 = 0) := by omega
  have h2 : ¬ (min t.width s.width < k.width ∨
      min t.height s.height < k.height) := by omega
  unfold convolveAndSubtract
  rw [if_neg h1, if_neg h2]
  simp [resImg]

/-- On a validated call the output mask at `(x, y)` is the footprint OR of
the template masks OR'd with the science mask, with the edge flag added at
edge pixels (§4.1 steps 5–6). -/
theorem resMsk_ok (t s : MaskedImage) (k : Kernel) (bg : Background)
    (invert : Bool) (x y : ℤ)
    (hodd : k.width % 2 = 1 ∧ k.height % 2 = 1)
    (hdim : k.width ≤ min t.width s.width ∧ k.height ≤ min t.height s.height) :
    resMsk (convolveAndSubtract t s k bg invert) x y =
      some (if isEdge s.width s.height k x y
            then (orFootprint t.msk k x y ||| s.msk x y) ||| edgeMask
            else orFootprint t.msk k x y ||| s.msk x y) := by
  have h1 : ¬ (k.width % 2 = 0 ∨ k.height % 2 = 0) := by omega
  have h2 : ¬ (min t.width s.width < k.width ∨
      min t.height s.height < k.height) := by omega
  unfold convolveAndSubtract
  rw [if_neg h1, if_neg h2]
  simp [resMsk]

/-- On a validated call the output variance at `(x, y)` is the convolution
of the template variance with the squared kernel plus the science variance
(§4.1 step 4). -/
theorem resVar_ok (t s : MaskedImage) (k : Kernel) (bg : Background)
    (invert : Bool) (x y : ℤ)
    (hodd : k.width % 2 = 1 ∧ k.height % 2 = 1)
    (hdim : k.width ≤ min t.width s.width ∧ k.height ≤ min t.height s.height) :
    resVar (convolveAndSubtract t s k bg invert) x y =
      some (convolvePix t.var k.sq x y + s.var x y) := by
  have h1 : ¬ (k.width % 2 = 0 ∨ k.height % 2 = 0) := by omega
  have h2 : ¬ (min t.width s.width < k.width ∨
      min t.height s.height < k.height) := by omega
  unfold convolveAndSubtract
  rw [if_neg h1, if_neg h2]
  simp [resVar]

/-! ## Concrete inputs for witnesses (the spec §8 scenario) -/

/-- The 5×5 all-10.0 template of the spec's §8 scenario, with zero mask and
unit variance. -/
def exTemplate : MaskedImage :=
  { width := 5, height := 5, img := fun _ _ => 10,
    msk := fun _ _ => 0, var := fun _ _ => 1 }

/-- The 5×5 all-12.0 science image of the spec's §8 scenario, with zero
mask and unit variance. -/
def exScience : MaskedImage :=
  { width := 5, height := 5, img := fun _ _ => 12,
    msk := fun _ _ => 0, var := fun _ _ => 1 }

/-- The 1×1 identity kernel with coefficient 1. -/
def idKernel : Kernel := { width := 1, height := 1, coeff := fun _ _ => 1 }

/-- The spec's §8 scenario kernel: 3×3, center coefficient 1, all others
0. -/
def centerKernel : Kernel :=
  { width := 3, height := 3,
    coeff := fun j i => if j = 1 ∧ i = 1 then 1 else 0 }

/-- A 4×4 (even-dimensioned, hence invalid) kernel. -/
def evenKernel : Kernel := { width := 4, height := 4, coeff := fun _ _ => 1 }

/-! ## The claims -/

/-- C2: for every template, science image, kernel and background, the
results of `convolveAndSubtract` with `invert = true` and with
`invert = false` are pixel-wise negatives of each other in the image plane,
while their variance and mask planes agree (and the two calls succeed or
fail together). -/
theorem c2_invert_negation (t s : MaskedImage) (k : Kernel) (bg : Background)
    (x y : ℤ) :
    resImg (convolveAndSubtract t s k bg true) x y =
      (resImg (convolveAndSubtract t s k bg false) x y).map (fun v => -v) ∧
    resVar (convolveAndSubtract t s k bg true) x y =
      resVar (convolveAndSubtract t s k bg false) x y ∧
    resMsk (convolveAndSubtract t s k bg true) x y =
      resMsk (convolveAndSubtract t s k bg false) x y := by
  unfold convolveAndSubtract
  by_cases h1 : k.width % 2 = 0 ∨ k.height % 2 = 0
  · simp only [if_pos h1]
    simp [resImg, resVar, resMsk]
  · by_cases h2 : min t.width s.width < k.width ∨
        min t.height s.height < k.height
    · simp only [if_neg h1, if_pos h2]
      simp [resImg, resVar, resMsk]
    · simp only [if_neg h1, if_neg h2]
      refine ⟨?_, ?_, ?_⟩ <;> simp [resImg, resVar, resMsk]

/-- C3: with the 1×1 identity kernel and constant background 0, a call with
`invert = true` on nonempty images returns the pixel-wise difference
`science − template` at every pixel. -/
theorem c3_identity_kernel (t s : MaskedImage)
    (ht : 0 < t.width ∧ 0 < t.height) (hs : 0 < s.width ∧ 0 < s.height)
    (x y : ℤ) :
    resImg (convolveAndSubtract t s idKernel (Background.const 0) true) x y =
      some (s.img x y - t.img x y) := by
  have hconv : convolvePix t.img idKernel x y = t.img x y := by
    unfold convolvePix idKernel Kernel.halfW Kernel.halfH
    simp
  rw [resImg_ok t s idKernel (Background.const 0) true x y
      (by constructor <;> rfl)
      (by unfold idKernel; constructor <;> simp <;> omega)]
  rw [hconv]
  simp [Background.eval]

/-- Concrete instance of C3: on the §8 scenario images (all-10 template,
all-12 science) the identity-kernel difference at pixel (2, 2) is 2. -/
theorem c3_identity_kernel_witness :
    resImg (convolveAndSubtract exTemplate exScience idKernel
        (Background.const 0) true) 2 2 = some 2 := by
  rw [c3_identity_kernel exTemplate exScience
      (by constructor <;> norm_num [exTemplate])
      (by constructor <;> norm_num [exScience]) 2 2]
  norm_num [exTemplate, exScience]

/-- C4: `convolveAndSubtract` fails with `InvalidKernelError` whenever the
kernel has even width, even height, or zero dimensions. -/
theorem c4_invalid_kernel (t s : MaskedImage) (k : Kernel) (bg : Background)
    (invert : Bool)
    (h : k.width % 2 = 0 ∨ k.height % 2 = 0 ∨ k.width = 0 ∨ k.height = 0) :
    convolveAndSubtract t s k bg invert =
      Except.error DiffimError.invalidKernel := by
  have h2 : k.width % 2 = 0 ∨ k.height % 2 = 0 := by omega
  unfold convolveAndSubtract
  rw [if_pos h2]

/-- Concrete instance of C4: a 4×4 kernel is rejected with
`InvalidKernelError`. -/
theorem c4_invalid_kernel_witness :
    convolveAndSubtract exTemplate exScience evenKernel
        (Background.const 0) true =
      Except.error DiffimError.invalidKernel :=
  c4_invalid_kernel exTemplate exScience evenKernel (Background.const 0) true
    (Or.inl (by norm_num [evenKernel]))

/-- C8: failure is decided entirely by the geometry precheck — the error of
a call, if any, equals `precheck t s k`, which reads only the kernel and
image geometry, never a pixel; on failure the result is an `Except.error`
carrying no output image, and since the engine is a pure function of its
arguments, repeated calls on the same inputs fail identically. -/
theorem c8_fail_atomic (t s : MaskedImage) (k : Kernel) (bg : Background)
    (invert : Bool) :
    errOf (convolveAndSubtract t s k bg invert) = precheck t s k := by
  unfold convolveAndSubtract precheck
  by_cases h1 : k.width % 2 = 0 ∨ k.height % 2 = 0
  · simp only [if_pos h1]
    simp [errOf]
  · by_cases h2 : min t.width s.width < k.width ∨
        min t.height s.height < k.height
    · simp only [if_neg h1, if_pos h2]
      simp [errOf]
    · simp only [if_neg h1, if_neg h2]
      simp [errOf]

/-- C5: on a validated call, every in-range pixel lying within
`floor(kernelHeight/2)` rows or `floor(kernelWidth/2)` columns of an image
edge carries the "edge" flag in the output mask, and its image value is
still produced (it carries the usual §4.1 step-3 value; nothing fails). -/
theorem c5_edge_flag (t s : MaskedImage) (k : Kernel) (bg : Background)
    (invert : Bool) (x y : ℤ)
    (hodd : k.width % 2 = 1 ∧ k.height % 2 = 1)
    (hdim : k.width ≤ min t.width s.width ∧ k.height ≤ min t.height s.height)
    (_hin : 0 ≤ x ∧ x < (s.width : ℤ) ∧ 0 ≤ y ∧ y < (s.height : ℤ))
    (he : isEdge s.width s.height k x y) :
    (resMsk (convolveAndSubtract t s k bg invert) x y).map
        (fun m => m.testBit 4) = some true ∧
    resImg (convolveAndSubtract t s k bg invert) x y =
      some (if invert then s.img x y - convolvePix t.img k x y - bg.eval x y
            else -(s.img x y - convolvePix t.img k x y - bg.eval x y)) := by
  refine ⟨?_, resImg_ok t s k bg invert x y hodd hdim⟩
  rw [resMsk_ok t s k bg invert x y hodd hdim, if_pos he]
  have hbit : ((orFootprint t.msk k x y ||| s.msk x y) ||| edgeMask).testBit 4
      = true := by
    rw [Nat.testBit_lor]
    have : edgeMask.testBit 4 = true := rfl
    rw [this, Bool.or_true]
  simp [hbit]

/-- Concrete instance of C5: on the §8 scenario the corner pixel (0, 0) of
the output carries the edge flag. -/
theorem c5_edge_flag_witness :
    (resMsk (convolveAndSubtract exTemplate exScience centerKernel
        (Background.const 0) true) 0 0).map (fun m => m.testBit 4) =
      some true :=
  (c5_edge_flag exTemplate exScience centerKernel (Background.const 0) true
    0 0 (by constructor <;> rfl)
    (by constructor <;> norm_num [centerKernel, exTemplate, exScience])
    (by refine ⟨le_refl 0, ?_, le_refl 0, ?_⟩ <;> norm_num [exScience])
    (by decide)).1

/-- C6 as stated is false at edge pixels: at the corner pixel (0, 0) of the
§8 scenario (all input masks zero) the output mask is the edge flag, not
the OR of the footprint template masks with the science mask (which is
zero). -/
theorem c6_counterexample :
    resMsk (convolveAndSubtract exTemplate exScience centerKernel
        (Background.const 0) true) 0 0 ≠
      some (orFootprint exTemplate.msk centerKernel 0 0 |||
        exScience.msk 0 0) := by
  decide

/-- C6 amended: on a validated call, at every pixel NOT within the kernel
half-width of the image boundary, the output mask equals the bitwise-OR of
the template mask pixels under the kernel footprint OR'd with the
co-located science mask pixel (edge pixels additionally carry the edge
flag). -/
theorem c6_mask_or (t s : MaskedImage) (k : Kernel) (bg : Background)
    (invert : Bool) (x y : ℤ)
    (hodd : k.width % 2 = 1 ∧ k.height % 2 = 1)
    (hdim : k.width ≤ min t.width s.width ∧ k.height ≤ min t.height s.height)
    (hne : ¬ isEdge s.width s.height k x y) :
    resMsk (convolveAndSubtract t s k bg invert) x y =
      some (orFootprint t.msk k x y ||| s.msk x y) := by
  rw [resMsk_ok t s k bg invert x y hodd hdim, if_neg hne]

/-- Concrete instance of the amended C6 at the interior pixel (2, 2) of the
§8 scenario. -/
theorem c6_mask_or_witness :
    resMsk (convolveAndSubtract exTemplate exScience centerKernel
        (Background.const 0) true) 2 2 =
      some (orFootprint exTemplate.msk centerKernel 2 2 |||
        exScience.msk 2 2) :=
  c6_mask_or exTemplate exScience centerKernel (Background.const 0) true 2 2
    (by constructor <;> rfl)
    (by constructor <;> norm_num [centerKernel, exTemplate, exScience])
    (by decide)

/-- C7: on a validated call the output variance at every pixel equals the
convolution of the template variance plane with the element-wise squared
kernel plus the co-located science variance, and this value is non-negative
whenever both input variance planes are non-negative (at every pixel, hence
in particular at non-edge pixels). -/
theorem c7_variance (t s : MaskedImage) (k : Kernel) (bg : Background)
    (invert : Bool) (x y : ℤ)
    (hodd : k.width % 2 = 1 ∧ k.height % 2 = 1)
    (hdim : k.width ≤ min t.width s.width ∧ k.height ≤ min t.height s.height)
    (htv : ∀ a b, 0 ≤ t.var a b) (hsv : ∀ a b, 0 ≤ s.var a b) :
    resVar (convolveAndSubtract t s k bg invert) x y =
      some (convolvePix t.var k.sq x y + s.var x y) ∧
    0 ≤ convolvePix t.var k.sq x y + s.var x y := by
  refine ⟨resVar_ok t s k bg invert x y hodd hdim, ?_⟩
  have hc : 0 ≤ convolvePix t.var k.sq x y := by
    unfold convolvePix
    refine Finset.sum_nonneg fun i _ => Finset.sum_nonneg fun j _ => ?_
    have hcf : (Kernel.sq k).coeff j i = k.coeff j i ^ 2 := rfl
    rw [hcf]
    exact mul_nonneg (sq_nonneg _) (htv _ _)
  exact add_nonneg hc (hsv x y)

/-- Concrete instance of C7 at the interior pixel (2, 2) of the §8 scenario
with unit input variances. -/
theorem c7_variance_witness :
    resVar (convolveAndSubtract exTemplate exScience centerKernel
        (Background.const 0) true) 2 2 =
      some (convolvePix exTemplate.var centerKernel.sq 2 2 +
        exScience.var 2 2) :=
  (c7_variance exTemplate exScience centerKernel (Background.const 0) true
    2 2 (by constructor <;> rfl)
    (by constructor <;> norm_num [centerKernel, exTemplate, exScience])
    (fun a b => by norm_num [exTemplate])
    (fun a b => by norm_num [exScience])).1

/-- C10: in every exposed overload the background argument is
double-precision (a `double` scalar or a `Function2<double>`), while the
pixel type is single-precision `float`; no overload couples the
background's precision to the pixel type. -/
theorem c10_background_always_double :
    wrapImageSubtract.map
        (fun o => (o.background.precision, o.pixel)) =
      [(CppFloat.double, CppFloat.float), (CppFloat.double, CppFloat.float),
       (CppFloat.double, CppFloat.float), (CppFloat.double, CppFloat.float)] := by
  decide

end Diffim
